import Mathlib

/-!
Shallow embedding of the SprintFit AI hybrid matching and batch
orchestration core (src/app/page.tsx, src/lib/gemini.ts).

JavaScript numbers are modelled as rationals; the arithmetic used by the
scoring code (division, multiplication by 0.4/0.6/1.5, Math.min,
Math.round) is exact on the values that occur here. Strings are Lean
strings; the tokenizer works on the character lists underneath.
-/

attribute [local semireducible] Rat.add Rat.mul Rat.inv Rat.sub Rat.ofScientific

/-- JavaScript whitespace characters, as matched by the regex class in
page.tsx and by String.prototype.trim (restricted to the ASCII range,
which is all the scoring logic distinguishes). -/
def isJsSpace (c : Char) : Bool :=
  c = ' ' || c = '\t' || c = '\n' || c = '\r' || c = '\x0b' || c = '\x0c'

/-- A JavaScript word character: the regex class [A-Za-z0-9_]. -/
def isWordChar (c : Char) : Bool :=
  c.isAlphanum || c = '_'

/-- String.prototype.trim: drop leading and trailing whitespace. -/
def jsTrim (s : String) : String :=
  String.mk (((s.data.dropWhile isJsSpace).reverse.dropWhile isJsSpace).reverse)

/-- String.prototype.split with the regex of one-or-more whitespace, as in
page.tsx: cuts at maximal whitespace runs, keeping an empty piece at either
boundary when the string starts or ends with whitespace, and returning one
empty piece for the empty string. -/
def splitWs : List Char → List (List Char)
  | [] => [[]]
  | c :: rest =>
    if isJsSpace c then
      match rest with
      | [] => [[], []]
      | c2 :: _ =>
        if isJsSpace c2 then splitWs rest else [] :: splitWs rest
    else
      match splitWs rest with
      | [] => [[]]
      | t :: ts => (c :: t) :: ts

/-- The token cleaner from analyzePair (page.tsx):
text.toLowerCase().replace of every character outside word-or-space with
nothing, then split on whitespace runs. -/
def clean (text : String) : List String :=
  (splitWs ((text.data.map Char.toLower).filter
    (fun c => isWordChar c || isJsSpace c))).map String.mk

/-- Math.round: round half toward positive infinity, as JavaScript does. -/
def jsRound (q : ℚ) : ℤ := Int.floor (q + 1 / 2)

/-- The lexical (keyword) score from analyzePair (page.tsx): unique resume
tokens, description tokens of length above 3, overlap ratio counting
description duplicates, boosted by 1.5 and capped at 100; zero when no
description token survives the length filter. -/
def keywordScore (resumeText jdText : String) : ℚ :=
  let resumeTokens := clean resumeText
  let jdTokens := (clean jdText).filter (fun t => t.length > 3)
  if jdTokens.length > 0 then
    let matched := jdTokens.filter (fun t => resumeTokens.contains t)
    min ((matched.length : ℚ) / (jdTokens.length : ℚ) * 100 * 1.5) 100
  else 0

/-- The three analysis modes (batch topologies) of page.tsx. -/
inductive Mode
  | single
  | manyResumes
  | manyJds
deriving DecidableEq

/-- An uploaded document (FileData in page.tsx). -/
structure FileData where
  id : String
  name : String
  text : String
deriving DecidableEq

/-- A MatchResult (AnalysisResult in page.tsx). -/
structure AnalysisResult where
  id : String
  name : String
  score : ℤ
  missingSkills : List String
  verdict : String
  keywordMatchRate : ℤ
  aiRating : ℚ
deriving DecidableEq

/-- The outcome of getGeminiAnalysis (gemini.ts) composed with the
code-fence strip and JSON.parse in analyzePair, as observed by the caller:
failure is the null return (the remote error is caught inside gemini.ts),
malformed is a non-null text that JSON.parse rejects, and parsed carries
the duck-typed fields of the parsed object — the score field is present and
numeric or not, the skills field is a present array or absent, the verdict
field is a present string or absent. -/
inductive GeminiOutcome
  | failure
  | malformed
  | parsed (score : Option ℚ) (skills : Option (List String)) (verdict : Option String)
deriving DecidableEq

/-- The non-short-circuit result construction of analyzePair after a
successful JSON.parse. A null return from getGeminiAnalysis also lands
here with every field absent, because the code substitutes the text of an
empty object before parsing. -/
def analyzeParsed (mode : Mode) (resume jd : FileData)
    (sc : Option ℚ) (sk : Option (List String)) (v : Option String) : AnalysisResult :=
  let kw := keywordScore resume.text jd.text
  let aiScore : ℚ := match sc with | some q => q | none => 0
  { id := if mode = Mode.manyResumes then resume.id else jd.id
    name := if mode = Mode.manyResumes then resume.name else jd.name
    score := jsRound (kw * (0.4 : ℚ) + aiScore * (0.6 : ℚ))
    missingSkills := match sk with | some l => l | none => []
    verdict := match v with
      | some s => if s = "" then "Analysis failed." else s
      | none => "Analysis failed."
    keywordMatchRate := jsRound kw
    aiRating := aiScore }

/-- The Pair Evaluator: analyzePair from page.tsx. The Reasoning Client
response arrives as a GeminiOutcome. -/
def analyzePair (mode : Mode) (resume jd : FileData) (g : GeminiOutcome) : AnalysisResult :=
  if jsTrim resume.text = jsTrim jd.text then
    { id := if mode = Mode.manyResumes then resume.id else jd.id
      name := if mode = Mode.manyResumes then resume.name else jd.name
      score := 0
      missingSkills := ["Identical Files Detected"]
      verdict := "Error: You likely uploaded the JD in the Resume slot."
      keywordMatchRate := 100
      aiRating := 0 }
  else
    match g with
    | GeminiOutcome.malformed =>
      { id := if mode = Mode.manyResumes then resume.id else jd.id
        name := if mode = Mode.manyResumes then resume.name else jd.name
        score := 0
        missingSkills := ["Error"]
        verdict := "Failed to analyze (Check API Key)."
        keywordMatchRate := 0
        aiRating := 0 }
    | GeminiOutcome.failure => analyzeParsed mode resume jd none none none
    | GeminiOutcome.parsed sc sk v => analyzeParsed mode resume jd sc sk v

/-- Whether analyzePair reaches the getGeminiAnalysis call: the control
flow calls the Reasoning Client exactly when the identical-file guard does
not fire. -/
def analyzePairInvokesClient (resume jd : FileData) : Bool :=
  !(jsTrim resume.text == jsTrim jd.text)

/-- Stable descending insertion by key: the new element goes in front of
the first strictly smaller key and behind every key at least as large. -/
def insertDesc (key : α → ℤ) (x : α) : List α → List α
  | [] => [x]
  | y :: ys => if key y ≤ key x then x :: y :: ys else y :: insertDesc key x ys

/-- Stable descending sort by key. Array.prototype.sort with the
comparator of runAnalysis (page.tsx) is required by the language standard
to be a stable sort under the consistent comparator on scores, and a
stable sort result is unique, so this insertion sort is its embedding. -/
def sortDesc (key : α → ℤ) (l : List α) : List α :=
  l.foldr (insertDesc key) []

theorem insertDesc_perm (key : α → ℤ) (x : α) (l : List α) :
    List.Perm (insertDesc key x l) (x :: l) := by
  induction l with
  | nil => simp [insertDesc]
  | cons y ys ih =>
    by_cases h : key y ≤ key x
    · simp [insertDesc, h]
    · simp only [insertDesc, if_neg h]
      exact (List.Perm.cons y ih).trans (List.Perm.swap x y ys)

theorem sortDesc_perm (key : α → ℤ) (l : List α) :
    List.Perm (sortDesc key l) l := by
  induction l with
  | nil => simp [sortDesc]
  | cons x xs ih =>
    exact (insertDesc_perm key x (sortDesc key xs)).trans (List.Perm.cons x ih)

theorem mem_insertDesc {key : α → ℤ} {x b : α} {l : List α}
    (h : b ∈ insertDesc key x l) : b = x ∨ b ∈ l := by
  have := (insertDesc_perm key x l).mem_iff.mp h
  simpa using this

theorem insertDesc_pairwise (key : α → ℤ) (x : α) (l : List α)
    (h : l.Pairwise (fun a b => key b ≤ key a)) :
    (insertDesc key x l).Pairwise (fun a b => key b ≤ key a) := by
  induction l with
  | nil => simp [insertDesc]
  | cons y ys ih =>
    rcases List.pairwise_cons.mp h with ⟨hy, hys⟩
    by_cases hxy : key y ≤ key x
    · simp only [insertDesc, if_pos hxy]
      refine List.pairwise_cons.mpr ⟨?_, h⟩
      intro b hb
      rcases List.mem_cons.mp hb with hb | hb
      · exact hb ▸ hxy
      · exact le_trans (hy b hb) hxy
    · simp only [insertDesc, if_neg hxy]
      refine List.pairwise_cons.mpr ⟨?_, ih hys⟩
      intro b hb
      rcases mem_insertDesc hb with hb | hb
      · exact hb ▸ le_of_lt (lt_of_not_le hxy)
      · exact hy b hb

theorem sortDesc_pairwise (key : α → ℤ) (l : List α) :
    (sortDesc key l).Pairwise (fun a b => key b ≤ key a) := by
  induction l with
  | nil => simp [sortDesc]
  | cons x xs ih => exact insertDesc_pairwise key x _ ih

/-- The stability order on index-tagged elements: strictly larger key
first, and on equal keys the smaller original index first. -/
def lexDesc (key : α → ℤ) (a b : ℕ × α) : Prop :=
  key b.2 < key a.2 ∨ (key a.2 = key b.2 ∧ a.1 < b.1)

theorem lexDesc_key_le {key : α → ℤ} {a b : ℕ × α} (h : lexDesc key a b) :
    key b.2 ≤ key a.2 := by
  rcases h with h | ⟨h, _⟩
  · exact le_of_lt h
  · exact le_of_eq h.symm

theorem insertDesc_pairwise_lexDesc (key : α → ℤ) (x : ℕ × α) (l : List (ℕ × α))
    (hl : l.Pairwise (lexDesc key))
    (hidx : ∀ y ∈ l, x.1 < y.1) :
    (insertDesc (fun p => key p.2) x l).Pairwise (lexDesc key) := by
  induction l with
  | nil => simp [insertDesc]
  | cons y ys ih =>
    rcases List.pairwise_cons.mp hl with ⟨hy, hys⟩
    by_cases hxy : key y.2 ≤ key x.2
    · simp only [insertDesc, if_pos hxy]
      refine List.pairwise_cons.mpr ⟨?_, hl⟩
      intro b hb
      have hble : key b.2 ≤ key x.2 := by
        rcases List.mem_cons.mp hb with hb | hb
        · exact hb ▸ hxy
        · exact le_trans (lexDesc_key_le (hy b hb)) hxy
      rcases lt_or_eq_of_le hble with hlt | heq
      · exact Or.inl hlt
      · exact Or.inr ⟨heq.symm, hidx b hb⟩
    · simp only [insertDesc, if_neg hxy]
      refine List.pairwise_cons.mpr ⟨?_, ?_⟩
      · intro b hb
        rcases mem_insertDesc hb with hb | hb
        · exact hb ▸ Or.inl (lt_of_not_le hxy)
        · exact hy b hb
      · exact ih hys (fun y hy => hidx y (List.mem_cons_of_mem _ hy))

theorem sortDesc_pairwise_lexDesc (key : α → ℤ) (l : List (ℕ × α))
    (h : l.Pairwise (fun a b => a.1 < b.1)) :
    (sortDesc (fun p => key p.2) l).Pairwise (lexDesc key) := by
  induction l with
  | nil => simp [sortDesc]
  | cons x xs ih =>
    rcases List.pairwise_cons.mp h with ⟨hx, hxs⟩
    refine insertDesc_pairwise_lexDesc key x _ (ih hxs) ?_
    intro y hy
    have hmem : y ∈ xs :=
      (sortDesc_perm (fun p : ℕ × α => key p.2) xs).mem_iff.mp hy
    exact hx y hmem

theorem insertDesc_map_snd (key : α → ℤ) (x : ℕ × α) (l : List (ℕ × α)) :
    List.map Prod.snd (insertDesc (fun p => key p.2) x l)
      = insertDesc key x.2 (List.map Prod.snd l) := by
  induction l with
  | nil => simp [insertDesc]
  | cons y ys ih =>
    by_cases h : key y.2 ≤ key x.2
    · simp [insertDesc, h]
    · simp [insertDesc, h, ih]

theorem sortDesc_map_snd (key : α → ℤ) (l : List (ℕ × α)) :
    List.map Prod.snd (sortDesc (fun p => key p.2) l)
      = sortDesc key (List.map Prod.snd l) := by
  induction l with
  | nil => simp [sortDesc]
  | cons x xs ih =>
    simp only [sortDesc, List.foldr_cons, List.map_cons]
    rw [insertDesc_map_snd]
    exact congrArg (insertDesc key x.2) ih

theorem enumFrom_pairwise_fst_lt (n : ℕ) (l : List α) :
    (List.enumFrom n l).Pairwise (fun a b => a.1 < b.1) := by
  induction l generalizing n with
  | nil => simp
  | cons x xs ih =>
    refine List.pairwise_cons.mpr ⟨?_, ih (n + 1)⟩
    intro b hb
    have := List.le_fst_of_mem_enumFrom hb
    omega

theorem enum_pairwise_fst_lt (l : List α) :
    l.enum.Pairwise (fun a b => a.1 < b.1) :=
  enumFrom_pairwise_fst_lt 0 l

/-- The outcome of one click on Run Analysis (runAnalysis in page.tsx):
the missing-credential early return, the empty-slot early return, or a
completed batch with its ranked results and the id selected as focus. -/
inductive RunOutcome
  | keyMissing
  | noDocs
  | ok (results : List AnalysisResult) (focusId : Option String)
deriving DecidableEq

/-- The Batch Orchestrator: runAnalysis from page.tsx. The environment's
response to each evaluated pair is supplied by the oracle. The credential
check comes first, then the empty-slot check; the batch is built
sequentially in upload order, sorted descending by score with the stable
comparator, and the top-ranked id becomes the focus. -/
def runAnalysis (hasKey : Bool) (mode : Mode) (resumes jds : List FileData)
    (oracle : FileData → FileData → GeminiOutcome) : RunOutcome :=
  if hasKey = false then RunOutcome.keyMissing
  else
    match resumes, jds with
    | [], _ => RunOutcome.noDocs
    | _ :: _, [] => RunOutcome.noDocs
    | r0 :: _, j0 :: _ =>
      let batch : List AnalysisResult :=
        match mode with
        | Mode.single => [analyzePair Mode.single r0 j0 (oracle r0 j0)]
        | Mode.manyResumes =>
          resumes.map (fun r => analyzePair Mode.manyResumes r j0 (oracle r j0))
        | Mode.manyJds =>
          jds.map (fun j => analyzePair Mode.manyJds r0 j (oracle r0 j))
      let ranked := sortDesc (fun a => a.score) batch
      RunOutcome.ok ranked (Option.map (fun a => a.id) ranked.head?)

/-- How many getGeminiAnalysis calls one click on Run Analysis performs,
mirroring the control flow of runAnalysis and analyzePair: none before the
credential and empty-slot guards pass, and one per evaluated pair whose
identical-file guard does not fire. -/
def runAnalysisClientCalls (hasKey : Bool) (mode : Mode)
    (resumes jds : List FileData) : ℕ :=
  if hasKey = false then 0
  else
    match resumes, jds with
    | [], _ => 0
    | _ :: _, [] => 0
    | r0 :: _, j0 :: _ =>
      match mode with
      | Mode.single => if analyzePairInvokesClient r0 j0 then 1 else 0
      | Mode.manyResumes =>
        (resumes.filter (fun r => analyzePairInvokesClient r j0)).length
      | Mode.manyJds =>
        (jds.filter (fun j => analyzePairInvokesClient r0 j)).length

/-- A conversation turn speaker (ChatMessage.role in page.tsx). -/
inductive Role
  | user
  | model
deriving DecidableEq

/-- A conversation turn (ChatMessage in page.tsx). -/
structure ChatMessage where
  role : Role
  text : String
deriving DecidableEq

/-- The outcome of the remote chat exchange inside getChatResponse
(gemini.ts): the remote call failed, or replied with some text. -/
inductive ChatOutcome
  | failure
  | ok (text : String)
deriving DecidableEq

/-- getChatResponse from gemini.ts: a remote failure is caught and turned
into a fixed offline message, so the caller always receives a string. -/
def getChatResponse (o : ChatOutcome) : String :=
  match o with
  | ChatOutcome.failure => "System error: The Recruiter Agent is currently offline."
  | ChatOutcome.ok t => t

/-- The transcript right after sendChatMessage (page.tsx) has appended the
newly sent user turn — the state the component is in while the remote chat
call is still outstanding. -/
def sendChatUserAppended (history : List ChatMessage) (input : String) : List ChatMessage :=
  history ++ [{ role := Role.user, text := input }]

/-- The component state of SprintFitAI (page.tsx) that the claims range
over: topology, upload slots, batch results, focus, and transcript. -/
structure AppState where
  mode : Mode
  resumes : List FileData
  jds : List FileData
  results : List AnalysisResult
  selectedResultId : Option String
  chatHistory : List ChatMessage
  showApiKeyAlert : Bool
deriving DecidableEq

/-- The initial component state (the useState defaults in page.tsx). -/
def initialState : AppState :=
  { mode := Mode.single
    resumes := []
    jds := []
    results := []
    selectedResultId := none
    chatHistory := []
    showApiKeyAlert := false }

/-- The user-visible events of page.tsx that touch the claimed state:
switching modes, uploading files, clicking Run Analysis, clicking a
leaderboard row, and sending a chat message. Remote behavior is carried
inside the event as the environment's response. -/
inductive Event
  | setMode (m : Mode)
  | uploadResumes (files : List FileData)
  | uploadJds (files : List FileData)
  | runClick (hasKey : Bool) (oracle : FileData → FileData → GeminiOutcome)
  | leaderboardClick (targetId : String)
  | sendChat (hasKey : Bool) (input : String) (o : ChatOutcome)

/-- One step of the SprintFitAI component, translated handler by handler:
the mode effect resets every slot on an actual mode change; uploads
replace or extend a slot depending on the mode; a run replaces the results
and moves the focus to the top-ranked id without touching the transcript;
a leaderboard click refocuses and clears the transcript; sending a chat
appends the user turn and then the model turn, substituting a fixed text
for an empty reply. -/
def step (s : AppState) (e : Event) : AppState :=
  match e with
  | Event.setMode m =>
    if m = s.mode then s
    else
      { mode := m
        resumes := []
        jds := []
        results := []
        selectedResultId := none
        chatHistory := []
        showApiKeyAlert := s.showApiKeyAlert }
  | Event.uploadResumes files =>
    if files = [] then s
    else
      { s with resumes :=
          if s.mode = Mode.single ∨ s.mode = Mode.manyJds then files
          else s.resumes ++ files }
  | Event.uploadJds files =>
    if files = [] then s
    else
      { s with jds :=
          if s.mode = Mode.single ∨ s.mode = Mode.manyResumes then files
          else s.jds ++ files }
  | Event.runClick hasKey oracle =>
    match runAnalysis hasKey s.mode s.resumes s.jds oracle with
    | RunOutcome.keyMissing => { s with showApiKeyAlert := true }
    | RunOutcome.noDocs => s
    | RunOutcome.ok res focus =>
      { s with
          results := res
          selectedResultId :=
            match focus with
            | some i => some i
            | none => s.selectedResultId }
  | Event.leaderboardClick targetId =>
    if s.mode ≠ Mode.single ∧ (∃ r ∈ s.results, r.id = targetId) then
      { s with selectedResultId := some targetId, chatHistory := [] }
    else s
  | Event.sendChat hasKey input o =>
    if hasKey = false then { s with showApiKeyAlert := true }
    else if jsTrim input = "" ∨ s.results = [] then s
    else
      { s with chatHistory :=
          sendChatUserAppended s.chatHistory input ++
            [{ role := Role.model
               text := if getChatResponse o = "" then "Error." else getChatResponse o }] }

theorem keywordScore_nonneg (rt jt : String) : 0 ≤ keywordScore rt jt := by
  simp only [keywordScore]
  split
  · refine le_min ?_ (by norm_num)
    positivity
  · exact le_refl 0

theorem keywordScore_le_100 (rt jt : String) : keywordScore rt jt ≤ 100 := by
  simp only [keywordScore]
  split
  · exact min_le_right _ _
  · norm_num

theorem jsRound_nonneg {q : ℚ} (h : 0 ≤ q) : 0 ≤ jsRound q := by
  unfold jsRound
  exact Int.le_floor.mpr (by push_cast; linarith)

theorem jsRound_le_100 {q : ℚ} (h : q ≤ 100) : jsRound q ≤ 100 := by
  unfold jsRound
  have : Int.floor (q + 1 / 2) < 101 := Int.floor_lt.mpr (by push_cast; linarith)
  omega

/-- C6: for every pair of input texts the Lexical Scorer stays in [0, 100],
and when no description token survives the length-above-3 filter it
returns exactly 0. -/
theorem lexical_score_in_range (rt jt : String) :
    0 ≤ keywordScore rt jt ∧ keywordScore rt jt ≤ 100 ∧
      ((clean jt).filter (fun t => t.length > 3) = [] → keywordScore rt jt = 0) := by
  refine ⟨keywordScore_nonneg rt jt, keywordScore_le_100 rt jt, ?_⟩
  intro h
  simp [keywordScore, h]

/-- C6 witness: the description text of three short words filters to no
tokens and scores exactly 0. -/
theorem lexical_score_in_range_witness :
    (clean "a an to").filter (fun t => t.length > 3) = [] ∧
      keywordScore "python developer" "a an to" = 0 :=
  ⟨by decide, (lexical_score_in_range "python developer" "a an to").2.2 (by decide)⟩

/-- C5: identical trimmed candidate and description text short-circuits to
the Identical Files Detected sentinel with score 0, the result does not
depend on the Reasoning Client response, and the client is not invoked. -/
theorem identical_files_short_circuit (mode : Mode) (r j : FileData)
    (g gAlt : GeminiOutcome) (h : jsTrim r.text = jsTrim j.text) :
    (analyzePair mode r j g).score = 0 ∧
      (analyzePair mode r j g).missingSkills = ["Identical Files Detected"] ∧
      (analyzePair mode r j g).verdict =
        "Error: You likely uploaded the JD in the Resume slot." ∧
      analyzePair mode r j g = analyzePair mode r j gAlt ∧
      analyzePairInvokesClient r j = false := by
  unfold analyzePair analyzePairInvokesClient
  rw [if_pos h, if_pos h]
  refine ⟨rfl, rfl, rfl, rfl, ?_⟩
  simp [h]

/-- C5 witness: two uploads whose texts agree after trimming. -/
theorem identical_files_short_circuit_witness :
    jsTrim " same text " = jsTrim "same text" ∧
      ((analyzePair Mode.single { id := "r", name := "r.pdf", text := " same text " }
          { id := "j", name := "j.pdf", text := "same text" }
          GeminiOutcome.failure).score = 0 ∧
        (analyzePair Mode.single { id := "r", name := "r.pdf", text := " same text " }
          { id := "j", name := "j.pdf", text := "same text" }
          GeminiOutcome.failure).missingSkills = ["Identical Files Detected"] ∧
        (analyzePair Mode.single { id := "r", name := "r.pdf", text := " same text " }
          { id := "j", name := "j.pdf", text := "same text" }
          GeminiOutcome.failure).verdict =
          "Error: You likely uploaded the JD in the Resume slot." ∧
        analyzePair Mode.single { id := "r", name := "r.pdf", text := " same text " }
          { id := "j", name := "j.pdf", text := "same text" }
          GeminiOutcome.failure =
          analyzePair Mode.single { id := "r", name := "r.pdf", text := " same text " }
            { id := "j", name := "j.pdf", text := "same text" }
            (GeminiOutcome.parsed (some 50) (some ["x"]) (some "v")) ∧
        analyzePairInvokesClient { id := "r", name := "r.pdf", text := " same text " }
          { id := "j", name := "j.pdf", text := "same text" } = false) :=
  ⟨by decide,
    identical_files_short_circuit Mode.single
      { id := "r", name := "r.pdf", text := " same text " }
      { id := "j", name := "j.pdf", text := "same text" }
      GeminiOutcome.failure (GeminiOutcome.parsed (some 50) (some ["x"]) (some "v"))
      (by decide)⟩

/-- C10: on the identical-files path the stored lexicalRate is the
constant 100 while the stored hybridScore is 0; the constant is not the
computed lexical score — on the identical pair of texts of three
one-letter words the lexical score would round to 0, not 100. -/
theorem identical_sentinel_lexical_constant (mode : Mode) (r j : FileData)
    (g : GeminiOutcome) (h : jsTrim r.text = jsTrim j.text) :
    (analyzePair mode r j g).keywordMatchRate = 100 ∧
      (analyzePair mode r j g).score = 0 ∧
      jsRound (keywordScore "a b c" "a b c") ≠ 100 := by
  unfold analyzePair
  rw [if_pos h]
  exact ⟨rfl, rfl, by decide⟩

/-- C10 witness: the identical pair of three one-letter words, whose
computed lexical score is 0 yet whose sentinel stores 100. -/
theorem identical_sentinel_lexical_constant_witness :
    jsTrim "a b c" = jsTrim "a b c" ∧
      ((analyzePair Mode.manyResumes { id := "r", name := "r.pdf", text := "a b c" }
          { id := "j", name := "j.pdf", text := "a b c" }
          GeminiOutcome.failure).keywordMatchRate = 100 ∧
        (analyzePair Mode.manyResumes { id := "r", name := "r.pdf", text := "a b c" }
          { id := "j", name := "j.pdf", text := "a b c" }
          GeminiOutcome.failure).score = 0 ∧
        jsRound (keywordScore "a b c" "a b c") ≠ 100) :=
  ⟨rfl,
    identical_sentinel_lexical_constant Mode.manyResumes
      { id := "r", name := "r.pdf", text := "a b c" }
      { id := "j", name := "j.pdf", text := "a b c" }
      GeminiOutcome.failure rfl⟩

/-- C8: with zero candidates or zero descriptions the orchestrator never
produces a BatchRun and performs no Reasoning Client call, whatever the
credential state, topology and environment. -/
theorem zero_docs_fail_fast (hasKey : Bool) (mode : Mode)
    (resumes jds : List FileData) (oracle : FileData → FileData → GeminiOutcome)
    (h : resumes = [] ∨ jds = []) :
    (∀ res focus, runAnalysis hasKey mode resumes jds oracle ≠ RunOutcome.ok res focus) ∧
      runAnalysisClientCalls hasKey mode resumes jds = 0 := by
  cases hasKey with
  | false =>
    exact ⟨fun res focus => by simp [runAnalysis], by simp [runAnalysisClientCalls]⟩
  | true =>
    rcases h with h | h
    · subst h
      exact ⟨fun res focus => by simp [runAnalysis], by simp [runAnalysisClientCalls]⟩
    · subst h
      cases resumes with
      | nil =>
        exact ⟨fun res focus => by simp [runAnalysis], by simp [runAnalysisClientCalls]⟩
      | cons r rs =>
        exact ⟨fun res focus => by simp [runAnalysis], by simp [runAnalysisClientCalls]⟩

/-- C8 witness: a run with one uploaded resume and no description. -/
theorem zero_docs_fail_fast_witness :
    (([{ id := "r", name := "r.pdf", text := "python" }] : List FileData) = [] ∨
        ([] : List FileData) = []) ∧
      ((∀ res focus,
          runAnalysis true Mode.single [{ id := "r", name := "r.pdf", text := "python" }]
            [] (fun _ _ => GeminiOutcome.failure) ≠ RunOutcome.ok res focus) ∧
        runAnalysisClientCalls true Mode.single
          [{ id := "r", name := "r.pdf", text := "python" }] [] = 0) :=
  ⟨Or.inr rfl,
    zero_docs_fail_fast true Mode.single [{ id := "r", name := "r.pdf", text := "python" }]
      [] (fun _ _ => GeminiOutcome.failure) (Or.inr rfl)⟩

/-- C9: sending a chat message appends the user turn to the transcript
before the remote call resolves (the appended prefix does not depend on
the outcome), and a remote failure appends the fixed offline sentinel as
the assistant turn instead of dropping the user turn. -/
theorem chat_failure_appends_sentinel (s : AppState) (input : String) (o : ChatOutcome)
    (h1 : jsTrim input ≠ "") (h2 : s.results ≠ []) :
    (step s (Event.sendChat true input o)).chatHistory =
        sendChatUserAppended s.chatHistory input ++
          [{ role := Role.model
             text := if getChatResponse o = "" then "Error." else getChatResponse o }] ∧
      sendChatUserAppended s.chatHistory input =
        s.chatHistory ++ [{ role := Role.user, text := input }] ∧
      (o = ChatOutcome.failure →
        (step s (Event.sendChat true input o)).chatHistory =
          s.chatHistory ++
            [{ role := Role.user, text := input },
             { role := Role.model
               text := "System error: The Recruiter Agent is currently offline." }]) := by
  have hcond : ¬(jsTrim input = "" ∨ s.results = []) := by
    intro hc
    rcases hc with hc | hc
    · exact h1 hc
    · exact h2 hc
  refine ⟨by simp [step, hcond], rfl, ?_⟩
  intro ho
  subst ho
  simp [step, hcond, sendChatUserAppended, getChatResponse]

/-- C9 witness: a nonempty transcript state, a nonempty input and a failed
remote chat call. -/
theorem chat_failure_appends_sentinel_witness :
    (jsTrim "why this score" ≠ "" ∧
        ({ initialState with
            results := [{ id := "a", name := "a.pdf", score := 50, missingSkills := [],
                          verdict := "v", keywordMatchRate := 10,
                          aiRating := 60 }] } : AppState).results ≠ []) ∧
      (step { initialState with
          results := [{ id := "a", name := "a.pdf", score := 50, missingSkills := [],
                        verdict := "v", keywordMatchRate := 10, aiRating := 60 }] }
        (Event.sendChat true "why this score" ChatOutcome.failure)).chatHistory =
        ({ initialState with
            results := [{ id := "a", name := "a.pdf", score := 50, missingSkills := [],
                          verdict := "v", keywordMatchRate := 10,
                          aiRating := 60 }] } : AppState).chatHistory ++
          [{ role := Role.user, text := "why this score" },
           { role := Role.model
             text := "System error: The Recruiter Agent is currently offline." }] :=
  ⟨⟨by decide, by decide⟩,
    (chat_failure_appends_sentinel
      { initialState with
          results := [{ id := "a", name := "a.pdf", score := 50, missingSkills := [],
                        verdict := "v", keywordMatchRate := 10, aiRating := 60 }] }
      "why this score" ChatOutcome.failure (by decide) (by decide)).2.2 rfl⟩

/-- C4 counterexample: after a batch run, a chat exchange and a second
batch run in the same mode, the new BatchRun has replaced the old one and
the focus has moved to a different result, yet the conversation turn
sequence still holds the old turns — nothing cleared it. -/
theorem conversation_not_cleared_on_new_run_cex :
    (let r1 : FileData := { id := "r1", name := "r1.pdf", text := "aaaa" }
     let r2 : FileData := { id := "r2", name := "r2.pdf", text := "bbbb" }
     let j1 : FileData := { id := "j1", name := "j1.pdf", text := "cccc" }
     let orA : FileData → FileData → GeminiOutcome := fun r _ =>
       GeminiOutcome.parsed (some (if r.id = "r1" then 80 else 20)) (some []) (some "v")
     let orB : FileData → FileData → GeminiOutcome := fun r _ =>
       GeminiOutcome.parsed (some (if r.id = "r1" then 20 else 80)) (some []) (some "v")
     let s5 := List.foldl step initialState
       [Event.setMode Mode.manyResumes, Event.uploadResumes [r1, r2],
        Event.uploadJds [j1], Event.runClick true orA,
        Event.sendChat true "hello" (ChatOutcome.ok "hi")]
     let s6 := step s5 (Event.runClick true orB)
     s5.selectedResultId = some "r1" ∧ s5.chatHistory ≠ [] ∧
       s6.results ≠ s5.results ∧ s6.selectedResultId = some "r2" ∧
       s6.chatHistory = s5.chatHistory ∧ s6.chatHistory ≠ []) := by
  decide

/-- C4 amended: the conversation is cleared when the user picks a result
on the leaderboard and when the topology changes; a new BatchRun produced
in the same topology does not clear it (see the counterexample). -/
theorem chat_cleared_on_select_and_mode_change (s : AppState) (m : Mode)
    (targetId : String) (hm : m ≠ s.mode) (hmode : s.mode ≠ Mode.single)
    (hid : ∃ r ∈ s.results, r.id = targetId) :
    (step s (Event.setMode m)).chatHistory = [] ∧
      (step s (Event.leaderboardClick targetId)).chatHistory = [] := by
  constructor
  · simp [step, hm]
  · simp only [step]
    rw [if_pos ⟨hmode, hid⟩]

/-- C4 amended witness: a concrete multi-result state where both clearing
transitions fire. -/
theorem chat_cleared_on_select_and_mode_change_witness :
    (Mode.single ≠
        ({ initialState with
            mode := Mode.manyResumes
            results := [{ id := "a", name := "a.pdf", score := 50, missingSkills := [],
                          verdict := "v", keywordMatchRate := 10, aiRating := 60 }]
            chatHistory := [{ role := Role.user, text := "old turn" }] } : AppState).mode ∧
        ({ initialState with
            mode := Mode.manyResumes
            results := [{ id := "a", name := "a.pdf", score := 50, missingSkills := [],
                          verdict := "v", keywordMatchRate := 10, aiRating := 60 }]
            chatHistory := [{ role := Role.user, text := "old turn" }] } : AppState).mode ≠
          Mode.single) ∧
      ((step { initialState with
            mode := Mode.manyResumes
            results := [{ id := "a", name := "a.pdf", score := 50, missingSkills := [],
                          verdict := "v", keywordMatchRate := 10, aiRating := 60 }]
            chatHistory := [{ role := Role.user, text := "old turn" }] }
          (Event.setMode Mode.single)).chatHistory = [] ∧
        (step { initialState with
            mode := Mode.manyResumes
            results := [{ id := "a", name := "a.pdf", score := 50, missingSkills := [],
                          verdict := "v", keywordMatchRate := 10, aiRating := 60 }]
            chatHistory := [{ role := Role.user, text := "old turn" }] }
          (Event.leaderboardClick "a")).chatHistory = []) :=
  ⟨⟨by decide, by decide⟩,
    chat_cleared_on_select_and_mode_change
      { initialState with
          mode := Mode.manyResumes
          results := [{ id := "a", name := "a.pdf", score := 50, missingSkills := [],
                        verdict := "v", keywordMatchRate := 10, aiRating := 60 }]
          chatHistory := [{ role := Role.user, text := "old turn" }] }
      Mode.single "a" (by decide) (by decide) ⟨_, List.mem_cons_self _ _, rfl⟩⟩

/-- C1 counterexample: one matching token out of seven gives an unrounded
lexical score of 150/7; the stored hybridScore is 9 while recomputing the
formula from the stored rounded lexicalRate 21 gives 8, so the claimed
identity over the stored fields fails on this non-sentinel result. -/
theorem hybrid_from_stored_rate_cex :
    (let res := analyzePair Mode.single { id := "r", name := "r.pdf", text := "alpha" }
        { id := "j", name := "j.pdf", text := "alpha bravo candy delta eagle fancy gamma" }
        (GeminiOutcome.parsed (some 0) (some []) (some "ok"))
     res.missingSkills = [] ∧ res.score = 9 ∧ res.keywordMatchRate = 21 ∧
       res.aiRating = 0 ∧
       res.score ≠
         jsRound ((res.keywordMatchRate : ℚ) * (0.4 : ℚ) + res.aiRating * (0.6 : ℚ))) := by
  decide

/-- C1 amended: on the non-short-circuit path with a parseable response,
hybridScore equals round of the weighted sum computed from the raw
(unrounded) lexical score and the stored semanticRate, and the stored
lexicalRate is the rounding of that same raw lexical score; the identity
over the stored rounded lexicalRate does not hold in general. -/
theorem hybrid_uses_unrounded_lexical (mode : Mode) (r j : FileData) (g : GeminiOutcome)
    (h1 : jsTrim r.text ≠ jsTrim j.text) (h2 : g ≠ GeminiOutcome.malformed) :
    (analyzePair mode r j g).score =
        jsRound (keywordScore r.text j.text * (0.4 : ℚ) +
          (analyzePair mode r j g).aiRating * (0.6 : ℚ)) ∧
      (analyzePair mode r j g).keywordMatchRate = jsRound (keywordScore r.text j.text) := by
  cases g with
  | failure =>
    unfold analyzePair
    rw [if_neg h1]
    exact ⟨rfl, rfl⟩
  | malformed => exact absurd rfl h2
  | parsed sc sk v =>
    unfold analyzePair
    rw [if_neg h1]
    exact ⟨rfl, rfl⟩

/-- C1 amended witness: the counterexample pair, where the raw lexical
score is 150/7 and both equations of the amended claim evaluate. -/
theorem hybrid_uses_unrounded_lexical_witness :
    (jsTrim "alpha" ≠ jsTrim "alpha bravo candy delta eagle fancy gamma" ∧
        GeminiOutcome.parsed (some 0) (some []) (some "ok") ≠ GeminiOutcome.malformed) ∧
      ((analyzePair Mode.single { id := "r", name := "r.pdf", text := "alpha" }
            { id := "j", name := "j.pdf", text := "alpha bravo candy delta eagle fancy gamma" }
            (GeminiOutcome.parsed (some 0) (some []) (some "ok"))).score =
          jsRound (keywordScore "alpha" "alpha bravo candy delta eagle fancy gamma" * (0.4 : ℚ) +
            (analyzePair Mode.single { id := "r", name := "r.pdf", text := "alpha" }
              { id := "j", name := "j.pdf", text := "alpha bravo candy delta eagle fancy gamma" }
              (GeminiOutcome.parsed (some 0) (some []) (some "ok"))).aiRating * (0.6 : ℚ)) ∧
        (analyzePair Mode.single { id := "r", name := "r.pdf", text := "alpha" }
            { id := "j", name := "j.pdf", text := "alpha bravo candy delta eagle fancy gamma" }
            (GeminiOutcome.parsed (some 0) (some []) (some "ok"))).keywordMatchRate =
          jsRound (keywordScore "alpha" "alpha bravo candy delta eagle fancy gamma")) :=
  ⟨⟨by decide, by decide⟩,
    hybrid_uses_unrounded_lexical Mode.single { id := "r", name := "r.pdf", text := "alpha" }
      { id := "j", name := "j.pdf", text := "alpha bravo candy delta eagle fancy gamma" }
      (GeminiOutcome.parsed (some 0) (some []) (some "ok")) (by decide) (by decide)⟩

/-- C7 counterexample: a parsed semantic score of 150 passes through
unclamped, giving semanticRate 150 and hybridScore 130, both outside
0-100. -/
theorem semantic_unclamped_cex :
    (let res := analyzePair Mode.single
        { id := "r", name := "r.pdf",
          text := "alpha bravo candy delta eagle fancy gamma extra" }
        { id := "j", name := "j.pdf", text := "alpha bravo candy delta eagle fancy gamma" }
        (GeminiOutcome.parsed (some 150) (some []) (some "v"))
     res.score = 130 ∧ res.aiRating = 150 ∧
       ¬(0 ≤ res.score ∧ res.score ≤ 100 ∧ 0 ≤ res.aiRating ∧
           res.aiRating ≤ 100)) := by
  decide

theorem analyzeParsed_range (mode : Mode) (r j : FileData) (sc : Option ℚ)
    (sk : Option (List String)) (v : Option String)
    (hq : ∀ q, sc = some q → 0 ≤ q ∧ q ≤ 100) :
    0 ≤ (analyzeParsed mode r j sc sk v).score ∧
      (analyzeParsed mode r j sc sk v).score ≤ 100 ∧
      0 ≤ (analyzeParsed mode r j sc sk v).aiRating ∧
      (analyzeParsed mode r j sc sk v).aiRating ≤ 100 := by
  have hkw0 := keywordScore_nonneg r.text j.text
  have hkw1 := keywordScore_le_100 r.text j.text
  cases sc with
  | none =>
    simp only [analyzeParsed]
    refine ⟨jsRound_nonneg (by linarith), jsRound_le_100 (by linarith), le_refl 0,
      by norm_num⟩
  | some q =>
    obtain ⟨hq0, hq1⟩ := hq q rfl
    simp only [analyzeParsed]
    exact ⟨jsRound_nonneg (by linarith), jsRound_le_100 (by linarith), hq0,
      le_trans hq1 (by norm_num)⟩

/-- C7 amended: hybridScore is an integer and, whenever the parsed numeric
semantic field (when present) lies in 0-100, both hybridScore and
semanticRate lie in 0-100; an out-of-range parsed value propagates
unclamped (see the counterexample). -/
theorem score_and_semantic_in_range (mode : Mode) (r j : FileData) (g : GeminiOutcome)
    (hg : ∀ q sk v, g = GeminiOutcome.parsed (some q) sk v → 0 ≤ q ∧ q ≤ 100) :
    0 ≤ (analyzePair mode r j g).score ∧ (analyzePair mode r j g).score ≤ 100 ∧
      0 ≤ (analyzePair mode r j g).aiRating ∧ (analyzePair mode r j g).aiRating ≤ 100 := by
  by_cases ht : jsTrim r.text = jsTrim j.text
  · unfold analyzePair
    rw [if_pos ht]
    refine ⟨le_refl 0, by norm_num, le_refl 0, by norm_num⟩
  · cases g with
    | failure =>
      unfold analyzePair
      rw [if_neg ht]
      exact analyzeParsed_range mode r j none none none (fun q h => nomatch h)
    | malformed =>
      unfold analyzePair
      rw [if_neg ht]
      refine ⟨le_refl 0, by norm_num, le_refl 0, by norm_num⟩
    | parsed sc sk v =>
      unfold analyzePair
      rw [if_neg ht]
      refine analyzeParsed_range mode r j sc sk v (fun q h => ?_)
      subst h
      exact hg q sk v rfl

/-- C7 amended witness: a pair with no parsed numeric semantic field, for
which the hypothesis holds vacuously. -/
theorem score_and_semantic_in_range_witness :
    0 ≤ (analyzePair Mode.single { id := "r", name := "r.pdf", text := "java spring" }
        { id := "j", name := "j.pdf", text := "senior java developer" }
        GeminiOutcome.failure).score ∧
      (analyzePair Mode.single { id := "r", name := "r.pdf", text := "java spring" }
        { id := "j", name := "j.pdf", text := "senior java developer" }
        GeminiOutcome.failure).score ≤ 100 ∧
      0 ≤ (analyzePair Mode.single { id := "r", name := "r.pdf", text := "java spring" }
        { id := "j", name := "j.pdf", text := "senior java developer" }
        GeminiOutcome.failure).aiRating ∧
      (analyzePair Mode.single { id := "r", name := "r.pdf", text := "java spring" }
        { id := "j", name := "j.pdf", text := "senior java developer" }
        GeminiOutcome.failure).aiRating ≤ 100 :=
  score_and_semantic_in_range Mode.single { id := "r", name := "r.pdf", text := "java spring" }
    { id := "j", name := "j.pdf", text := "senior java developer" }
    GeminiOutcome.failure (fun _ _ _ h => nomatch h)

theorem analyzePair_manyResumes_id (r jd : FileData) (g : GeminiOutcome) :
    (analyzePair Mode.manyResumes r jd g).id = r.id := by
  unfold analyzePair analyzeParsed
  cases g <;> split <;> rfl

/-- C2 counterexample: when the Reasoning Client call itself fails (a null
return from getGeminiAnalysis), the evaluator does not produce the Error
sentinel: the text of an empty object is substituted, the parse succeeds,
and the pair gets missingSkills [] and the Analysis failed verdict instead
of missingSkills [Error] and the check-credentials verdict. -/
theorem call_failure_not_error_sentinel_cex :
    (let res := analyzePair Mode.single { id := "r", name := "r.pdf", text := "java spring" }
        { id := "j", name := "j.pdf", text := "senior python developer" }
        GeminiOutcome.failure
     res.missingSkills = [] ∧ res.missingSkills ≠ ["Error"] ∧
       res.verdict = "Analysis failed." ∧
       res.verdict ≠ "Failed to analyze (Check API Key).") := by
  decide

/-- C2 amended: an unparseable Reasoning Client response yields the Error
sentinel with the check-credentials verdict; a failed call instead yields
a parse of the substituted empty object (semantic 0, no skill list, the
Analysis failed verdict); and in a five-pair batch every pair still
produces its own MatchResult — the run emits exactly five results, a
permutation of the per-pair evaluations, each depending only on its own
pair's response. -/
theorem malformed_sentinel_batch_of_five (resumes : List FileData) (jd : FileData)
    (jdsRest : List FileData) (oracle : FileData → FileData → GeminiOutcome)
    (h5 : resumes.length = 5) :
    runAnalysis true Mode.manyResumes resumes (jd :: jdsRest) oracle =
        RunOutcome.ok
          (sortDesc (fun a => a.score)
            (resumes.map (fun r => analyzePair Mode.manyResumes r jd (oracle r jd))))
          (Option.map (fun a => a.id)
            (sortDesc (fun a => a.score)
              (resumes.map
                (fun r => analyzePair Mode.manyResumes r jd (oracle r jd)))).head?) ∧
      (sortDesc (fun a => a.score)
          (resumes.map (fun r => analyzePair Mode.manyResumes r jd (oracle r jd)))).length =
        5 ∧
      List.Perm
        (sortDesc (fun a => a.score)
          (resumes.map (fun r => analyzePair Mode.manyResumes r jd (oracle r jd))))
        (resumes.map (fun r => analyzePair Mode.manyResumes r jd (oracle r jd))) ∧
      (∀ r : FileData, jsTrim r.text ≠ jsTrim jd.text →
        analyzePair Mode.manyResumes r jd GeminiOutcome.malformed =
          { id := r.id, name := r.name, score := 0, missingSkills := ["Error"],
            verdict := "Failed to analyze (Check API Key).", keywordMatchRate := 0,
            aiRating := 0 }) := by
  cases resumes with
  | nil => simp at h5
  | cons r0 rs =>
    refine ⟨rfl, ?_, sortDesc_perm _ _, ?_⟩
    · rw [(sortDesc_perm _ _).length_eq, List.length_map]
      exact h5
    · intro r hrj
      unfold analyzePair
      rw [if_neg hrj]
      rfl

/-- C2 amended witness: five concrete pairs, the third with an unparseable
response, the rest with parsed responses. -/
theorem malformed_sentinel_batch_of_five_witness :
    (let resumesW : List FileData :=
      [{ id := "r1", name := "r1.pdf", text := "java spring" },
       { id := "r2", name := "r2.pdf", text := "python django" },
       { id := "r3", name := "r3.pdf", text := "golang kubernetes" },
       { id := "r4", name := "r4.pdf", text := "haskell" },
       { id := "r5", name := "r5.pdf", text := "rust tokio" }]
     let jdW : FileData :=
      { id := "j", name := "j.pdf", text := "senior python developer django" }
     let oracleW : FileData -> FileData -> GeminiOutcome := fun r _ =>
       if r.id = "r3" then GeminiOutcome.malformed
       else GeminiOutcome.parsed (some 50) (some []) (some "ok")
     resumesW.length = 5 ∧
       (runAnalysis true Mode.manyResumes resumesW (jdW :: []) oracleW =
           RunOutcome.ok
             (sortDesc (fun a => a.score)
               (resumesW.map (fun r => analyzePair Mode.manyResumes r jdW (oracleW r jdW))))
             (Option.map (fun a => a.id)
               (sortDesc (fun a => a.score)
                 (resumesW.map
                   (fun r => analyzePair Mode.manyResumes r jdW (oracleW r jdW)))).head?) ∧
         (sortDesc (fun a => a.score)
             (resumesW.map
               (fun r => analyzePair Mode.manyResumes r jdW (oracleW r jdW)))).length = 5 ∧
         List.Perm
           (sortDesc (fun a => a.score)
             (resumesW.map (fun r => analyzePair Mode.manyResumes r jdW (oracleW r jdW))))
           (resumesW.map (fun r => analyzePair Mode.manyResumes r jdW (oracleW r jdW))) ∧
         (∀ r : FileData, jsTrim r.text ≠ jsTrim jdW.text →
           analyzePair Mode.manyResumes r jdW GeminiOutcome.malformed =
             { id := r.id, name := r.name, score := 0, missingSkills := ["Error"],
               verdict := "Failed to analyze (Check API Key).", keywordMatchRate := 0,
               aiRating := 0 }))) :=
  ⟨rfl,
    malformed_sentinel_batch_of_five
      [{ id := "r1", name := "r1.pdf", text := "java spring" },
       { id := "r2", name := "r2.pdf", text := "python django" },
       { id := "r3", name := "r3.pdf", text := "golang kubernetes" },
       { id := "r4", name := "r4.pdf", text := "haskell" },
       { id := "r5", name := "r5.pdf", text := "rust tokio" }]
      { id := "j", name := "j.pdf", text := "senior python developer django" } []
      (fun r _ =>
        if r.id = "r3" then GeminiOutcome.malformed
        else GeminiOutcome.parsed (some 50) (some []) (some "ok"))
      rfl⟩

/-- C3: the many-candidates topology evaluates one result per candidate in
upload order, each carrying the candidate's id; the emitted sequence is
the stable descending sort of the evaluations by hybridScore (with ties in
original order, witnessed by the index-tagged ordering), and the focus is
the top-ranked member's id. -/
theorem many_candidates_ranked (resumes : List FileData) (jd : FileData)
    (jdsRest : List FileData) (oracle : FileData → FileData → GeminiOutcome)
    (hr : resumes ≠ []) :
    runAnalysis true Mode.manyResumes resumes (jd :: jdsRest) oracle =
        RunOutcome.ok
          (sortDesc (fun a => a.score)
            (resumes.map (fun r => analyzePair Mode.manyResumes r jd (oracle r jd))))
          (Option.map (fun a => a.id)
            (sortDesc (fun a => a.score)
              (resumes.map
                (fun r => analyzePair Mode.manyResumes r jd (oracle r jd)))).head?) ∧
      (sortDesc (fun a => a.score)
          (resumes.map (fun r => analyzePair Mode.manyResumes r jd (oracle r jd)))).length =
        resumes.length ∧
      (resumes.map (fun r => analyzePair Mode.manyResumes r jd (oracle r jd))).map
          (fun a => a.id) =
        resumes.map (fun f => f.id) ∧
      List.Perm
        (sortDesc (fun a => a.score)
          (resumes.map (fun r => analyzePair Mode.manyResumes r jd (oracle r jd))))
        (resumes.map (fun r => analyzePair Mode.manyResumes r jd (oracle r jd))) ∧
      List.Pairwise (fun a b => b.score ≤ a.score)
        (sortDesc (fun a => a.score)
          (resumes.map (fun r => analyzePair Mode.manyResumes r jd (oracle r jd)))) ∧
      List.map Prod.snd
          (sortDesc (fun p => p.2.score)
            (resumes.map (fun r => analyzePair Mode.manyResumes r jd (oracle r jd))).enum) =
        sortDesc (fun a => a.score)
          (resumes.map (fun r => analyzePair Mode.manyResumes r jd (oracle r jd))) ∧
      List.Pairwise
        (fun a b => b.2.score < a.2.score ∨ (a.2.score = b.2.score ∧ a.1 < b.1))
        (sortDesc (fun p => p.2.score)
          (resumes.map (fun r => analyzePair Mode.manyResumes r jd (oracle r jd))).enum) ∧
      ∃ top rest,
        sortDesc (fun a => a.score)
            (resumes.map (fun r => analyzePair Mode.manyResumes r jd (oracle r jd))) =
          top :: rest ∧
        Option.map (fun a => a.id)
            (sortDesc (fun a => a.score)
              (resumes.map
                (fun r => analyzePair Mode.manyResumes r jd (oracle r jd)))).head? =
          some top.id ∧
        ∀ b ∈ rest, b.score ≤ top.score := by
  cases resumes with
  | nil => exact absurd rfl hr
  | cons r0 rs =>
    refine ⟨rfl, ?_, ?_, sortDesc_perm _ _, sortDesc_pairwise _ _, ?_, ?_, ?_⟩
    · rw [(sortDesc_perm _ _).length_eq, List.length_map]
    · simp [List.map_map, Function.comp_def, analyzePair_manyResumes_id]
    · have h := sortDesc_map_snd (fun a : AnalysisResult => a.score)
        ((r0 :: rs).map (fun r => analyzePair Mode.manyResumes r jd (oracle r jd))).enum
      rw [List.enum_map_snd] at h
      exact h
    · exact sortDesc_pairwise_lexDesc (fun a : AnalysisResult => a.score) _
        (enum_pairwise_fst_lt _)
    · have hlen : (sortDesc (fun a : AnalysisResult => a.score)
          ((r0 :: rs).map (fun r => analyzePair Mode.manyResumes r jd (oracle r jd)))).length =
          (r0 :: rs).length := by
        rw [(sortDesc_perm _ _).length_eq, List.length_map]
      have hne : sortDesc (fun a : AnalysisResult => a.score)
          ((r0 :: rs).map (fun r => analyzePair Mode.manyResumes r jd (oracle r jd))) ≠ [] := by
        intro hnil
        rw [hnil] at hlen
        simp at hlen
      obtain ⟨top, rest, heq⟩ := List.exists_cons_of_ne_nil hne
      refine ⟨top, rest, heq, ?_, ?_⟩
      · rw [heq]
        rfl
      · have hp := sortDesc_pairwise (fun a : AnalysisResult => a.score)
          ((r0 :: rs).map (fun r => analyzePair Mode.manyResumes r jd (oracle r jd)))
        rw [heq] at hp
        exact (List.pairwise_cons.mp hp).1

/-- C3 witness: three candidates against one description, including a
score tie so that the stability clause is exercised. -/
theorem many_candidates_ranked_witness :
    (let resumesW : List FileData :=
      [{ id := "r1", name := "r1.pdf", text := "aaaa" },
       { id := "r2", name := "r2.pdf", text := "bbbb" },
       { id := "r3", name := "r3.pdf", text := "dddd" }]
     let jdW : FileData := { id := "j", name := "j.pdf", text := "cccc" }
     let oracleW : FileData → FileData → GeminiOutcome := fun r _ =>
       GeminiOutcome.parsed (some (if r.id = "r3" then 90 else 40)) (some []) (some "v")
     resumesW ≠ [] ∧
       runAnalysis true Mode.manyResumes resumesW (jdW :: []) oracleW =
         RunOutcome.ok
           (sortDesc (fun a => a.score)
             (resumesW.map (fun r => analyzePair Mode.manyResumes r jdW (oracleW r jdW))))
           (Option.map (fun a => a.id)
             (sortDesc (fun a => a.score)
               (resumesW.map
                 (fun r => analyzePair Mode.manyResumes r jdW (oracleW r jdW)))).head?)) :=
  ⟨by decide,
    (many_candidates_ranked
      [{ id := "r1", name := "r1.pdf", text := "aaaa" },
       { id := "r2", name := "r2.pdf", text := "bbbb" },
       { id := "r3", name := "r3.pdf", text := "dddd" }]
      { id := "j", name := "j.pdf", text := "cccc" } []
      (fun r _ =>
        GeminiOutcome.parsed (some (if r.id = "r3" then 90 else 40)) (some []) (some "v"))
      (by decide)).1⟩
